import Mathlib

/-!
Verification of the CHECK-MODULE documentation server core.

Strings are modelled as `List Char`; JavaScript `string.toLowerCase` as a
character-wise lowercase map; `Map`/object stores as lists that keep the
insertion-order semantics of the JavaScript originals; the network fetch of
`webFetcher.ts` as an injected oracle; wall-clock time as an explicit `Nat`
argument.  All definitions are translated directly from `src/docStore.ts`
and `src/webFetcher.ts`.
-/

namespace CheckModule

/-- Character-wise lowercase, modelling JavaScript `toLowerCase`. -/
def lowerStr (s : List Char) : List Char := s.map Char.toLower

/-- Boolean test that `needle` is an initial segment of `hay`. -/
def startsWith : List Char → List Char → Bool
  | _, [] => true
  | [], _ :: _ => false
  | c :: t, d :: u => c == d && startsWith t u

/-- Model of JavaScript `hay.indexOf(needle)`: the first index at which
`needle` occurs in `hay`, or `none` when it does not occur. -/
def jsIndexOf : List Char → List Char → Option Nat
  | [], needle => if startsWith [] needle then some 0 else none
  | c :: t, needle =>
      if startsWith (c :: t) needle then some 0
      else (jsIndexOf t needle).map (· + 1)

/-- Model of JavaScript `hay.includes(needle)`. -/
def jsIncludes (hay needle : List Char) : Bool := (jsIndexOf hay needle).isSome

/-- Model of `DocEntry` from `src/types.ts`; `lastUpdated` is a `Nat` timestamp. -/
structure DocEntry where
  id : List Char
  title : List Char
  description : List Char
  content : List Char
  category : List Char
  tags : List (List Char)
  lastUpdated : Nat
  version : Option (List Char)
deriving DecidableEq

/-- Model of `SearchOptions` from `src/types.ts`. -/
structure SearchOptions where
  query : List Char
  category : Option (List Char)
  tags : Option (List (List Char))
  limit : Option Nat
deriving DecidableEq

/-- Model of `SearchResult` from `src/types.ts`. -/
structure SearchResult where
  doc : DocEntry
  score : Nat
  excerpt : List Char
deriving DecidableEq

/-- Category filter of `DocumentationStore.search`: the JavaScript guard
`if (category && doc.category !== category) return` passes when `category`
is absent, empty (falsy), or equal to the document's category. -/
def categoryPass (opts : SearchOptions) (d : DocEntry) : Bool :=
  match opts.category with
  | none => true
  | some c => c.isEmpty || d.category == c

/-- Tag filter of `DocumentationStore.search`: when a non-empty tag list is
supplied, some requested tag must appear verbatim among the document's tags. -/
def tagsPass (opts : SearchOptions) (d : DocEntry) : Bool :=
  match opts.tags with
  | none => true
  | some ts => ts.isEmpty || ts.any (fun t => d.tags.contains t)

/-- Relevance score of `DocumentationStore.search`, lines 187-209 of
`src/docStore.ts`: +10 title, +5 description, +2 content, +3 tags, all
case-insensitive substring tests against the lowercased query. -/
def scoreDoc (query : List Char) (d : DocEntry) : Nat :=
  let queryLower := lowerStr query
  (if jsIncludes (lowerStr d.title) queryLower then 10 else 0)
    + (if jsIncludes (lowerStr d.description) queryLower then 5 else 0)
    + (if jsIncludes (lowerStr d.content) queryLower then 2 else 0)
    + (if d.tags.any (fun t => jsIncludes (lowerStr t) queryLower) then 3 else 0)

/-- Ellipsis marker wrapped around content excerpts. -/
def ellipsisMark : List Char := "...".toList

/-- Excerpt construction of `DocumentationStore.search`, lines 212-221 of
`src/docStore.ts`: the description by default, or a window of the original
content around the first occurrence of the lowercased query. -/
def excerptFor (query : List Char) (d : DocEntry) : List Char :=
  let queryLower := lowerStr query
  let contentLower := lowerStr d.content
  match jsIndexOf contentLower queryLower with
  | none => d.description
  | some queryIndex =>
      ellipsisMark
        ++ ((d.content.take (min d.content.length (queryIndex + 150))).drop (queryIndex - 50))
        ++ ellipsisMark

/-- One iteration of the `forEach` body of `DocumentationStore.search`:
filters, then score, then a hit exactly when the score is positive. -/
def hitFor (opts : SearchOptions) (d : DocEntry) : Option SearchResult :=
  if categoryPass opts d then
    if tagsPass opts d then
      if 0 < scoreDoc opts.query d then
        some ⟨d, scoreDoc opts.query d, excerptFor opts.query d⟩
      else none
    else none
  else none

/-- All hits accumulated by the `forEach` loop of `DocumentationStore.search`,
in store iteration order. -/
def searchHits (store : List DocEntry) (opts : SearchOptions) : List SearchResult :=
  store.filterMap (hitFor opts)

/-- Comparator of `DocumentationStore.search`: `(a, b) => b.score - a.score`
sorts by score descending. -/
def hitLE (a b : SearchResult) : Bool := decide (b.score ≤ a.score)

/-- Model of `DocumentationStore.search`, lines 169-231 of `src/docStore.ts`:
score every stored document, keep positive scores, stable-sort by score
descending, truncate to `limit` (default 10 when absent). -/
def search (store : List DocEntry) (opts : SearchOptions) : List SearchResult :=
  ((searchHits store opts).mergeSort hitLE).take (opts.limit.getD 10)

/-- Model of `DocumentationStore.getDocById`, lines 139-141 of `src/docStore.ts`. -/
def getDocById (store : List DocEntry) (id : List Char) : Option DocEntry :=
  store.find? (fun d => d.id == id)

/-- JavaScript `Map.set` keyed by `id`: replace in place when the key exists,
append otherwise. -/
def setDoc (store : List DocEntry) (d : DocEntry) : List DocEntry :=
  if store.any (fun e => e.id == d.id) then
    store.map (fun e => if e.id == d.id then d else e)
  else store ++ [d]

/-- Model of `DocumentationStore.addDoc`, lines 236-239 of `src/docStore.ts`:
overwrite `lastUpdated` with the current time, then store by id. -/
def addDoc (store : List DocEntry) (d : DocEntry) (now : Nat) : List DocEntry :=
  setDoc store { d with lastUpdated := now }

/-- Library-name normalization of `src/webFetcher.ts`:
`library.toLowerCase().replace(/[^a-z0-9]/g, '')`. -/
def normalizeLib (name : List Char) : List Char :=
  (name.map Char.toLower).filter
    (fun c => decide (('a' ≤ c ∧ c ≤ 'z') ∨ ('0' ≤ c ∧ c ≤ '9')))

/-- Lookup in the documentation-source registry (JavaScript object indexing). -/
def sourceGet (m : List (List Char × List Char)) (k : List Char) : Option (List Char) :=
  (m.find? (fun p => p.1 == k)).map (fun p => p.2)

/-- Assignment into the documentation-source registry (JavaScript object
property assignment: overwrite in place, or append a new key). -/
def sourceSet (m : List (List Char × List Char)) (k v : List Char) :
    List (List Char × List Char) :=
  if m.any (fun p => p.1 == k) then
    m.map (fun p => if p.1 == k then (k, v) else p)
  else m ++ [(k, v)]

/-- Model of `addDocSource` from `src/webFetcher.ts`, lines 141-144. -/
def addDocSource (m : List (List Char × List Char)) (library url : List Char) :
    List (List Char × List Char) :=
  sourceSet m (normalizeLib library) url

/-- Registry lookup by raw library name, as performed at the head of
`searchLibraryDocs`: normalize then index. -/
def resolveLib (m : List (List Char × List Char)) (library : List Char) :
    Option (List Char) :=
  sourceGet m (normalizeLib library)

/-- The seeded `DOC_SOURCES` table of `src/webFetcher.ts`, lines 16-30. -/
def docSources : List (List Char × List Char) :=
  [ ("langgraph".toList, "https://langchain-ai.github.io/langgraph/".toList),
    ("langchain".toList, "https://python.langchain.com/docs/introduction/".toList),
    ("react".toList, "https://react.dev/learn".toList),
    ("nextjs".toList, "https://nextjs.org/docs".toList),
    ("vue".toList, "https://vuejs.org/guide/introduction.html".toList),
    ("fastapi".toList, "https://fastapi.tiangolo.com/".toList),
    ("django".toList, "https://docs.djangoproject.com/en/stable/".toList),
    ("express".toList, "https://expressjs.com/en/guide/routing.html".toList),
    ("pytorch".toList, "https://pytorch.org/docs/stable/index.html".toList),
    ("tensorflow".toList, "https://www.tensorflow.org/guide".toList),
    ("pandas".toList, "https://pandas.pydata.org/docs/".toList),
    ("numpy".toList, "https://numpy.org/doc/stable/".toList),
    ("crewai".toList, "https://docs.crewai.com/".toList) ]

/-- The four heuristic fallback URLs built in `searchLibraryDocs`,
lines 84-89 of `src/webFetcher.ts`. -/
def possibleUrls (libraryLower : List Char) : List (List Char) :=
  [ "https://".toList ++ libraryLower ++ ".readthedocs.io/".toList,
    "https://docs.".toList ++ libraryLower ++ ".com/".toList,
    "https://".toList ++ libraryLower ++ ".org/docs/".toList,
    "https://github.com/".toList ++ libraryLower ++ "/".toList ++ libraryLower ]

/-- Failure modes of the fetch pipeline. -/
inductive FetchError where
  | sourceNotFound (library : List Char) (tried : List (List Char))
  | fetchFailed (url : List Char) (msg : List Char)
deriving DecidableEq

/-- Model of `LibraryDocResult` from `src/webFetcher.ts`. -/
structure LibraryDocResult where
  library : List Char
  source : List Char
  content : List Char
  url : List Char
deriving DecidableEq

/-- Line-match test of the topic filter in `searchLibraryDocs`:
`lines[i].toLowerCase().includes(queryLower)`. -/
def lineMatches (queryLower line : List Char) : Bool :=
  jsIncludes (lowerStr line) queryLower

/-- The relevant-line accumulation loop of `searchLibraryDocs`, lines 109-117
of `src/webFetcher.ts`: on a match at index `i` push `lines.slice(max(0,i-3),
min(len,i+10))` and resume the scan at `min(len,i+10) + 1`. -/
def relevantLines (queryLower : List Char) (lines : List (List Char)) (i : Nat) :
    List (List Char) :=
  if h : i < lines.length then
    if lineMatches queryLower (lines.getD i []) then
      ((lines.take (min lines.length (i + 10))).drop (i - 3))
        ++ relevantLines queryLower lines (min lines.length (i + 10) + 1)
    else
      relevantLines queryLower lines (i + 1)
  else []
termination_by lines.length - i
decreasing_by
  · omega
  · omega

/-- The same scan as `relevantLines`, recording for every match the triple
(match index, window start, window end) instead of the window contents. -/
def scanTriples (queryLower : List Char) (lines : List (List Char)) (i : Nat) :
    List (Nat × Nat × Nat) :=
  if h : i < lines.length then
    if lineMatches queryLower (lines.getD i []) then
      (i, i - 3, min lines.length (i + 10))
        :: scanTriples queryLower lines (min lines.length (i + 10) + 1)
    else
      scanTriples queryLower lines (i + 1)
  else []
termination_by lines.length - i
decreasing_by
  · omega
  · omega

/-- The window of lines described by one scan triple. -/
def windowSlice (lines : List (List Char)) (w : Nat × Nat × Nat) : List (List Char) :=
  (lines.take w.2.2).drop w.2.1

/-- Topic filtering of `searchLibraryDocs`, lines 101-122 of
`src/webFetcher.ts`: when a non-empty topic is supplied, keep the matched
windows joined by newlines, falling back to the whole text when nothing
matched. -/
def filteredContent (content : List Char) (query : Option (List Char)) : List Char :=
  match query with
  | none => content
  | some q =>
      if q.isEmpty then content
      else
        let queryLower := lowerStr q
        let lines := List.splitOn '\n' content
        let rel := relevantLines queryLower lines 0
        if rel.isEmpty then content else List.intercalate ['\n'] rel

/-- Truncation marker appended by `searchLibraryDocs`. -/
def truncationMark : List Char := "\n\n... (content truncated)".toList

/-- Length limiting of `searchLibraryDocs`, lines 124-128 of
`src/webFetcher.ts`: cut to 5000 characters and append the marker. -/
def truncateContent (s : List Char) : List Char :=
  if 5000 < s.length then s.take 5000 ++ truncationMark else s

/-- Model of `searchLibraryDocs`, lines 76-136 of `src/webFetcher.ts`.  The
network retrieval (`fetchUrl`, including its HTML-to-text reduction) is an
injected oracle producing either the reduced page text or a failure message. -/
def searchLibraryDocs (sources : List (List Char × List Char))
    (fetchUrl : List Char → Except (List Char) (List Char))
    (library : List Char) (query : Option (List Char)) :
    Except FetchError LibraryDocResult :=
  let libraryLower := normalizeLib library
  match sourceGet sources libraryLower with
  | none => Except.error (FetchError.sourceNotFound library (possibleUrls libraryLower))
  | some docUrl =>
      match fetchUrl docUrl with
      | Except.error e => Except.error (FetchError.fetchFailed docUrl e)
      | Except.ok content =>
          Except.ok ⟨library, docUrl, truncateContent (filteredContent content query), docUrl⟩


/-! Concrete data used by witnesses. -/

def docA : DocEntry :=
  { id := "a1".toList, title := "Alpha Guide".toList, description := "general notes".toList,
    content := "hello world".toList, category := "Guides".toList, tags := ["misc".toList],
    lastUpdated := 0, version := none }

def optsA : SearchOptions :=
  { query := "alpha".toList, category := none, tags := none, limit := none }

def rA : SearchResult := ⟨docA, 10, "general notes".toList⟩

def docB : DocEntry :=
  { id := "b1".toList, title := "Beta".toList, description := "short".toList,
    content := "hello world".toList, category := "Cat".toList, tags := [],
    lastUpdated := 0, version := none }

def optsB : SearchOptions :=
  { query := "world".toList, category := none, tags := none, limit := none }

def rB : SearchResult := ⟨docB, 2, "...hello world...".toList⟩

def mkDoc (id title : List Char) : DocEntry :=
  ⟨id, title, "d".toList, "c".toList, "cat".toList, [], 0, none⟩

def storeC3 : List DocEntry :=
  [mkDoc "1".toList "Doc One".toList, mkDoc "2".toList "Doc Two".toList,
    mkDoc "3".toList "Doc Three".toList]

def optsC3 : SearchOptions := ⟨"doc".toList, none, none, some 1⟩

def storeC10 : List DocEntry := List.replicate 11 (mkDoc "x".toList "Doc N".toList)

def optsC10 : SearchOptions := ⟨"doc".toList, none, none, none⟩


/-- Twelve lines with topic matches at indices 0 and 11. -/
def linesEx : List (List Char) :=
  [ "see topic here".toList, "l1".toList, "l2".toList, "l3".toList, "l4".toList,
    "l5".toList, "l6".toList, "l7".toList, "l8".toList, "l9".toList,
    "l10".toList, "the topic again".toList ]


/-- Oracle returning a 6000-character reduced page for every URL. -/
def oracle6000 : List Char → Except (List Char) (List Char) :=
  fun _ => Except.ok (List.replicate 6000 'a')

def reactUrl : List Char := "https://react.dev/learn".toList

def rOk : LibraryDocResult :=
  ⟨"react".toList, reactUrl, List.replicate 5000 'a' ++ truncationMark, reactUrl⟩


/-! Helper lemmas. -/

/-- When `jsIndexOf` returns an index, the needle occurs there and nowhere
earlier. -/
lemma jsIndexOf_first {hay needle : List Char} :
    ∀ {p : Nat}, jsIndexOf hay needle = some p →
      startsWith (List.drop p hay) needle = true ∧
        ∀ q, q < p → startsWith (List.drop q hay) needle = false := by
  induction hay with
  | nil =>
      intro p hp
      by_cases hs : startsWith [] needle = true
      · simp [jsIndexOf, hs] at hp
        subst hp
        exact ⟨hs, fun q hq => absurd hq (by omega)⟩
      · simp [jsIndexOf, hs] at hp
  | cons c t ih =>
      intro p hp
      by_cases hs : startsWith (c :: t) needle = true
      · simp [jsIndexOf, hs] at hp
        subst hp
        exact ⟨hs, fun q hq => absurd hq (by omega)⟩
      · simp [jsIndexOf, hs] at hp
        obtain ⟨p', hp', rfl⟩ := hp
        obtain ⟨h1, h2⟩ := ih hp'
        refine ⟨h1, ?_⟩
        intro q hq
        cases q with
        | zero =>
            simpa using Bool.not_eq_true _ |>.mp hs
        | succ q =>
            exact h2 q (by omega)

/-- Membership in a search result list comes from a store document whose
`hitFor` produced the hit. -/
lemma mem_search {store : List DocEntry} {opts : SearchOptions} {r : SearchResult}
    (h : r ∈ search store opts) :
    ∃ d, d ∈ store ∧ hitFor opts d = some r := by
  unfold search at h
  have h2 : r ∈ (searchHits store opts).mergeSort hitLE :=
    (List.take_sublist _ _).subset h
  exact List.mem_filterMap.mp (List.mem_mergeSort.mp h2)

/-- Inversion of one `forEach` iteration producing a hit. -/
lemma hitFor_inv {opts : SearchOptions} {d : DocEntry} {r : SearchResult}
    (h : hitFor opts d = some r) :
    r.doc = d ∧ r.score = scoreDoc opts.query d ∧ 0 < scoreDoc opts.query d ∧
      r.excerpt = excerptFor opts.query d := by
  unfold hitFor at h
  split_ifs at h with h1 h2 h3
  · cases h
    exact ⟨rfl, rfl, h3, rfl⟩

/-- The score is the sum of the four substring contributions. -/
lemma scoreDoc_decomp (q : List Char) (d : DocEntry) :
    scoreDoc q d
      = (if jsIncludes (lowerStr d.title) (lowerStr q) then 10 else 0)
        + (if jsIncludes (lowerStr d.description) (lowerStr q) then 5 else 0)
        + (if jsIncludes (lowerStr d.content) (lowerStr q) then 2 else 0)
        + (if d.tags.any (fun t => jsIncludes (lowerStr t) (lowerStr q)) then 3 else 0) := rfl

/-- The score never exceeds 20. -/
lemma scoreDoc_le_twenty (q : List Char) (d : DocEntry) : scoreDoc q d ≤ 20 := by
  rw [scoreDoc_decomp]
  split_ifs <;> omega

/-- A title match contributes at least 10. -/
lemma scoreDoc_title (q : List Char) (d : DocEntry)
    (h : jsIncludes (lowerStr d.title) (lowerStr q) = true) : 10 ≤ scoreDoc q d := by
  rw [scoreDoc_decomp, if_pos h]
  split_ifs <;> omega

lemma hitLE_trans : ∀ a b c : SearchResult,
    hitLE a b = true → hitLE b c = true → hitLE a c = true := by
  intro a b c hab hbc
  simp only [hitLE, decide_eq_true_eq] at *
  omega

lemma hitLE_total : ∀ a b : SearchResult, (hitLE a b || hitLE b a) = true := by
  intro a b
  simp only [hitLE, Bool.or_eq_true, decide_eq_true_eq]
  omega

/-- Search output is sorted by score, descending. -/
lemma search_sorted (store : List DocEntry) (opts : SearchOptions) :
    (search store opts).Pairwise (fun a b => b.score ≤ a.score) := by
  unfold search
  have hs := List.sorted_mergeSort hitLE_trans hitLE_total (searchHits store opts)
  have hp := List.Pairwise.sublist
    (List.take_sublist (opts.limit.getD 10) ((searchHits store opts).mergeSort hitLE)) hs
  exact hp.imp (fun hab => by simpa [hitLE] using hab)

/-- Search output length is bounded by the effective limit. -/
lemma search_length_le (store : List DocEntry) (opts : SearchOptions) :
    (search store opts).length ≤ opts.limit.getD 10 := by
  unfold search
  rw [List.length_take]
  omega

/-- A store whose scan produces exactly one hit searches to that hit when no
limit is supplied. -/
lemma search_singleton {store : List DocEntry} {opts : SearchOptions} {r : SearchResult}
    (h : searchHits store opts = [r]) (hl : opts.limit = none) :
    search store opts = [r] := by
  unfold search
  rw [h, hl]
  rw [List.perm_singleton.mp (List.mergeSort_perm [r] hitLE)]
  rfl


/-- Replacing in place by id makes the replaced document findable. -/
lemma find?_map_replace (t : List DocEntry) (d : DocEntry)
    (h : t.any (fun e => e.id == d.id) = true) :
    (t.map (fun e => if e.id == d.id then d else e)).find? (fun e => e.id == d.id)
      = some d := by
  induction t with
  | nil => simp at h
  | cons e t ih =>
      rw [List.map_cons]
      by_cases he : (e.id == d.id) = true
      · rw [if_pos he, List.find?_cons_of_pos _ (by simp)]
      · have he' : (e.id == d.id) = false := by simpa using he
        rw [if_neg he, List.find?_cons_of_neg _ (by simp [he'])]
        exact ih (by simpa [List.any_cons, he'] using h)

/-- Appending a fresh document makes it findable. -/
lemma find?_append_self (t : List DocEntry) (d : DocEntry)
    (h : t.any (fun e => e.id == d.id) = false) :
    (t ++ [d]).find? (fun e => e.id == d.id) = some d := by
  induction t with
  | nil =>
      rw [List.nil_append, List.find?_cons_of_pos _ (by simp)]
  | cons e t ih =>
      have he : (e.id == d.id) = false := by
        rcases Bool.eq_false_or_eq_true (e.id == d.id) with h0 | h0
        · simp [List.any_cons, h0] at h
        · exact h0
      rw [List.cons_append, List.find?_cons_of_neg _ (by simp [he])]
      exact ih (by simpa [List.any_cons, he] using h)

/-- Storing a document by id makes it the one found for that id. -/
lemma getDocById_setDoc (store : List DocEntry) (d : DocEntry) :
    getDocById (setDoc store d) d.id = some d := by
  unfold getDocById setDoc
  by_cases hany : store.any (fun e => e.id == d.id) = true
  · rw [if_pos hany]
    exact find?_map_replace store d hany
  · rw [if_neg hany]
    exact find?_append_self store d (Bool.eq_false_iff.mpr hany)

/-- Replacing a registry value in place makes it the one looked up. -/
lemma find?_map_replace_pair (t : List (List Char × List Char)) (k v : List Char)
    (h : t.any (fun p => p.1 == k) = true) :
    (t.map (fun p => if p.1 == k then (k, v) else p)).find? (fun p => p.1 == k)
      = some (k, v) := by
  induction t with
  | nil => simp at h
  | cons e t ih =>
      rw [List.map_cons]
      by_cases he : (e.1 == k) = true
      · rw [if_pos he, List.find?_cons_of_pos _ (by simp)]
      · have he' : (e.1 == k) = false := by simpa using he
        rw [if_neg he, List.find?_cons_of_neg _ (by simp [he'])]
        exact ih (by simpa [List.any_cons, he'] using h)

/-- Appending a fresh registry key makes it the one looked up. -/
lemma find?_append_self_pair (t : List (List Char × List Char)) (k v : List Char)
    (h : t.any (fun p => p.1 == k) = false) :
    (t ++ [(k, v)]).find? (fun p => p.1 == k) = some (k, v) := by
  induction t with
  | nil =>
      rw [List.nil_append, List.find?_cons_of_pos _ (by simp)]
  | cons e t ih =>
      have he : (e.1 == k) = false := by
        rcases Bool.eq_false_or_eq_true (e.1 == k) with h0 | h0
        · simp [List.any_cons, h0] at h
        · exact h0
      rw [List.cons_append, List.find?_cons_of_neg _ (by simp [he])]
      exact ih (by simpa [List.any_cons, he] using h)

/-- Registry assignment followed by lookup of the same key yields the value. -/
lemma sourceGet_sourceSet (m : List (List Char × List Char)) (k v : List Char) :
    sourceGet (sourceSet m k v) k = some v := by
  unfold sourceGet sourceSet
  by_cases hany : m.any (fun p => p.1 == k) = true
  · rw [if_pos hany, find?_map_replace_pair m k v hany]
    rfl
  · rw [if_neg hany, find?_append_self_pair m k v (Bool.eq_false_iff.mpr hany)]
    rfl

/-! Lemmas on the topic-window scan of `searchLibraryDocs`. -/

/-- Scan step: past the end of the lines, nothing is collected. -/
lemma relevantLines_stop {q : List Char} {lines : List (List Char)} {i : Nat}
    (h : ¬ i < lines.length) : relevantLines q lines i = [] := by
  unfold relevantLines
  rw [dif_neg h]

/-- Scan step: a matching line contributes its window and the scan resumes past
the window end. -/
lemma relevantLines_match {q : List Char} {lines : List (List Char)} {i : Nat}
    (h : i < lines.length) (hm : lineMatches q (lines.getD i []) = true) :
    relevantLines q lines i
      = ((lines.take (min lines.length (i + 10))).drop (i - 3))
        ++ relevantLines q lines (min lines.length (i + 10) + 1) := by
  conv_lhs => rw [relevantLines]
  rw [dif_pos h, if_pos hm]

/-- Scan step: a non-matching line is skipped. -/
lemma relevantLines_nomatch {q : List Char} {lines : List (List Char)} {i : Nat}
    (h : i < lines.length) (hm : lineMatches q (lines.getD i []) = false) :
    relevantLines q lines i = relevantLines q lines (i + 1) := by
  have hm' : ¬ lineMatches q (lines.getD i []) = true := by rw [hm]; simp
  conv_lhs => rw [relevantLines]
  rw [dif_pos h, if_neg hm']

lemma scanTriples_stop {q : List Char} {lines : List (List Char)} {i : Nat}
    (h : ¬ i < lines.length) : scanTriples q lines i = [] := by
  unfold scanTriples
  rw [dif_neg h]

lemma scanTriples_match {q : List Char} {lines : List (List Char)} {i : Nat}
    (h : i < lines.length) (hm : lineMatches q (lines.getD i []) = true) :
    scanTriples q lines i
      = (i, i - 3, min lines.length (i + 10))
        :: scanTriples q lines (min lines.length (i + 10) + 1) := by
  conv_lhs => rw [scanTriples]
  rw [dif_pos h, if_pos hm]

lemma scanTriples_nomatch {q : List Char} {lines : List (List Char)} {i : Nat}
    (h : i < lines.length) (hm : lineMatches q (lines.getD i []) = false) :
    scanTriples q lines i = scanTriples q lines (i + 1) := by
  have hm' : ¬ lineMatches q (lines.getD i []) = true := by rw [hm]; simp
  conv_lhs => rw [scanTriples]
  rw [dif_pos h, if_neg hm']

/-- The collected relevant lines are exactly the concatenation of the windows
of the recorded scan triples. -/
lemma relevantLines_eq_windows (q : List Char) (lines : List (List Char)) :
    ∀ (n i : Nat), lines.length ≤ i + n →
      relevantLines q lines i
        = (List.map (windowSlice lines) (scanTriples q lines i)).flatten := by
  intro n
  induction n with
  | zero =>
      intro i hle
      rw [relevantLines_stop (by omega), scanTriples_stop (by omega)]
      rfl
  | succ n ih =>
      intro i hle
      by_cases h : i < lines.length
      · by_cases hm : lineMatches q (lines.getD i []) = true
        · rw [relevantLines_match h hm, scanTriples_match h hm,
            ih (min lines.length (i + 10) + 1) (by omega)]
          simp [windowSlice]
        · rw [relevantLines_nomatch h (by simpa using hm),
            scanTriples_nomatch h (by simpa using hm)]
          exact ih (i + 1) (by omega)
      · rw [relevantLines_stop h, scanTriples_stop h]
        rfl

/-- Every recorded scan triple is a genuine match at or after the scan start,
with exactly the window bounds of the source. -/
lemma scanTriples_spec (q : List Char) (lines : List (List Char)) :
    ∀ (n i : Nat), lines.length ≤ i + n →
      ∀ w ∈ scanTriples q lines i,
        i ≤ w.1 ∧ w.1 < lines.length
          ∧ lineMatches q (lines.getD w.1 []) = true
          ∧ w.2.1 = w.1 - 3 ∧ w.2.2 = min lines.length (w.1 + 10) := by
  intro n
  induction n with
  | zero =>
      intro i hle w hw
      rw [scanTriples_stop (by omega)] at hw
      simp at hw
  | succ n ih =>
      intro i hle w hw
      by_cases h : i < lines.length
      · by_cases hm : lineMatches q (lines.getD i []) = true
        · rw [scanTriples_match h hm] at hw
          rcases List.mem_cons.mp hw with hw | hw
          · subst hw
            exact ⟨le_refl i, h, hm, rfl, rfl⟩
          · obtain ⟨h1, h2⟩ := ih (min lines.length (i + 10) + 1) (by omega) w hw
            exact ⟨by omega, h2⟩
        · rw [scanTriples_nomatch h (by simpa using hm)] at hw
          obtain ⟨h1, h2⟩ := ih (i + 1) (by omega) w hw
          exact ⟨by omega, h2⟩
      · rw [scanTriples_stop h] at hw
        simp at hw

/-- Scan match indices are strictly increasing: no line is matched twice. -/
lemma scanTriples_increasing (q : List Char) (lines : List (List Char)) :
    ∀ (n i : Nat), lines.length ≤ i + n →
      (scanTriples q lines i).Pairwise (fun a b => a.1 < b.1) := by
  intro n
  induction n with
  | zero =>
      intro i hle
      rw [scanTriples_stop (by omega)]
      exact List.Pairwise.nil
  | succ n ih =>
      intro i hle
      by_cases h : i < lines.length
      · by_cases hm : lineMatches q (lines.getD i []) = true
        · rw [scanTriples_match h hm]
          refine List.Pairwise.cons ?_ (ih (min lines.length (i + 10) + 1) (by omega))
          intro w hw
          have := (scanTriples_spec q lines (n + 1) (min lines.length (i + 10) + 1)
            (by omega) w hw).1
          show i < w.1
          omega
        · rw [scanTriples_nomatch h (by simpa using hm)]
          exact ih (i + 1) (by omega)
      · rw [scanTriples_stop h]
        exact List.Pairwise.nil

/-- When no line matches, the scan collects nothing. -/
lemma relevantLines_of_no_match {q : List Char} {lines : List (List Char)}
    (hno : ∀ l ∈ lines, lineMatches q l = false) :
    ∀ (n i : Nat), lines.length ≤ i + n → relevantLines q lines i = [] := by
  intro n
  induction n with
  | zero =>
      intro i hle
      exact relevantLines_stop (by omega)
  | succ n ih =>
      intro i hle
      by_cases h : i < lines.length
      · have hm : lineMatches q (lines.getD i []) = false := by
          apply hno
          rw [List.getD_eq_getElem lines [] h]
          exact List.getElem_mem h
        rw [relevantLines_nomatch h hm]
        exact ih (i + 1) (by omega)
      · exact relevantLines_stop h

/-- When no line of the split content matches, filtering falls back to the
whole content. -/
lemma filteredContent_fallback (content q : List Char) (hq : q.isEmpty = false)
    (hno : ∀ l ∈ List.splitOn '\n' content, lineMatches (lowerStr q) l = false) :
    filteredContent content (some q) = content := by
  have hrel : relevantLines (lowerStr q) (List.splitOn '\n' content) 0 = [] :=
    relevantLines_of_no_match hno (List.splitOn '\n' content).length 0 (by omega)
  simp [filteredContent, hq, hrel]


/-- Excerpt when the query does not occur in the content. -/
lemma excerptFor_none {q : List Char} {d : DocEntry}
    (h : jsIndexOf (lowerStr d.content) (lowerStr q) = none) :
    excerptFor q d = d.description := by
  simp [excerptFor, h]

/-- Excerpt when the query first occurs at offset `p` in the content. -/
lemma excerptFor_some {q : List Char} {d : DocEntry} {p : Nat}
    (h : jsIndexOf (lowerStr d.content) (lowerStr q) = some p) :
    excerptFor q d
      = ellipsisMark
        ++ ((d.content.take (min d.content.length (p + 150))).drop (p - 50))
        ++ ellipsisMark := by
  simp [excerptFor, h]

/-! Claim theorems. -/

/-- C1: for every document, search scores it as the sum of exactly four
independent contributions against the lowercased query text (+10 title, +5
description, +2 content, +3 some tag, each a case-insensitive substring
test); hence every score is at most 20 and a title match scores at least 10,
and every returned hit carries exactly this score of its document. -/
theorem score_is_additive_and_bounded (opts : SearchOptions) (d : DocEntry) :
    scoreDoc opts.query d
        = (if jsIncludes (lowerStr d.title) (lowerStr opts.query) then 10 else 0)
          + (if jsIncludes (lowerStr d.description) (lowerStr opts.query) then 5 else 0)
          + (if jsIncludes (lowerStr d.content) (lowerStr opts.query) then 2 else 0)
          + (if d.tags.any (fun t => jsIncludes (lowerStr t) (lowerStr opts.query))
              then 3 else 0)
      ∧ scoreDoc opts.query d ≤ 20
      ∧ (jsIncludes (lowerStr d.title) (lowerStr opts.query) = true →
          10 ≤ scoreDoc opts.query d)
      ∧ ∀ (store : List DocEntry) (r : SearchResult), r ∈ search store opts →
          r.score = scoreDoc opts.query r.doc := by
  refine ⟨scoreDoc_decomp opts.query d, scoreDoc_le_twenty _ _, scoreDoc_title _ _, ?_⟩
  intro store r hr
  obtain ⟨d', _, hhit⟩ := mem_search hr
  obtain ⟨hdoc, hscore, _, _⟩ := hitFor_inv hhit
  rw [hscore, hdoc]

/-- Witness for C1 at a one-document store. -/
theorem score_is_additive_and_bounded_witness :
    10 ≤ scoreDoc optsA.query docA ∧ rA.score = scoreDoc optsA.query rA.doc := by
  have hsearch : search [docA] optsA = [rA] := search_singleton (by decide) rfl
  refine ⟨(score_is_additive_and_bounded optsA docA).2.2.1 (by decide), ?_⟩
  exact (score_is_additive_and_bounded optsA docA).2.2.2 [docA] rA
    (by rw [hsearch]; exact List.mem_singleton.mpr rfl)

/-- C2: every hit returned by search has a positive score; a document whose
computed score is zero never appears in the output. -/
theorem search_hits_positive (store : List DocEntry) (opts : SearchOptions)
    (r : SearchResult) (h : r ∈ search store opts) :
    0 < r.score ∧ 0 < scoreDoc opts.query r.doc := by
  obtain ⟨d, _, hhit⟩ := mem_search h
  obtain ⟨hdoc, hscore, hpos, _⟩ := hitFor_inv hhit
  rw [hscore, hdoc]
  exact ⟨hpos, hpos⟩

/-- Witness for C2 at a one-document store. -/
theorem search_hits_positive_witness :
    0 < rA.score ∧ 0 < scoreDoc optsA.query rA.doc := by
  have hsearch : search [docA] optsA = [rA] := search_singleton (by decide) rfl
  exact search_hits_positive [docA] optsA rA
    (by rw [hsearch]; exact List.mem_singleton.mpr rfl)

/-- C3: search output is sorted by score descending and its length never
exceeds the limit (10 when absent); with limit 1 and three matching documents
exactly one hit is returned. -/
theorem search_sorted_and_limited (store : List DocEntry) (opts : SearchOptions) :
    (search store opts).length ≤ opts.limit.getD 10
      ∧ (search store opts).Pairwise (fun a b => b.score ≤ a.score)
      ∧ (search storeC3 optsC3).length = 1 := by
  refine ⟨search_length_le store opts, search_sorted store opts, ?_⟩
  unfold search
  rw [List.length_take, (List.mergeSort_perm (searchHits storeC3 optsC3) hitLE).length_eq]
  rw [show (searchHits storeC3 optsC3).length = 3 from by decide]
  decide

/-- C8: upsert followed by getById with the same id returns a document whose
fields all match the input except `lastUpdated`, which equals the time of the
call (overriding any caller-supplied value) and is therefore at least it. -/
theorem upsert_getById_roundtrip (store : List DocEntry) (d : DocEntry) (now : Nat) :
    ∃ d', getDocById (addDoc store d now) d.id = some d'
      ∧ d'.id = d.id ∧ d'.title = d.title ∧ d'.description = d.description
      ∧ d'.content = d.content ∧ d'.category = d.category ∧ d'.tags = d.tags
      ∧ d'.version = d.version ∧ d'.lastUpdated = now ∧ now ≤ d'.lastUpdated := by
  refine ⟨{ d with lastUpdated := now }, ?_, rfl, rfl, rfl, rfl, rfl, rfl, rfl, rfl,
    le_refl now⟩
  exact getDocById_setDoc store { d with lastUpdated := now }

/-- C9: resolution is normalization-insensitive: names with equal normalized
forms resolve identically, registration followed by resolution of any name
with the same normalization returns the registered URL, and the three spellings
of the seeded langgraph entry resolve to the same URL. -/
theorem resolve_normalization :
    (∀ (sources : List (List Char × List Char)) (a b : List Char),
        normalizeLib a = normalizeLib b → resolveLib sources a = resolveLib sources b)
      ∧ (∀ (sources : List (List Char × List Char)) (name url m : List Char),
          normalizeLib m = normalizeLib name →
          resolveLib (addDocSource sources name url) m = some url)
      ∧ resolveLib docSources "LangGraph".toList
          = some "https://langchain-ai.github.io/langgraph/".toList
      ∧ resolveLib docSources "lang-graph".toList
          = some "https://langchain-ai.github.io/langgraph/".toList
      ∧ resolveLib docSources "langgraph".toList
          = some "https://langchain-ai.github.io/langgraph/".toList := by
  refine ⟨fun sources a b h => ?_, fun sources name url m h => ?_,
    by decide, by decide, by decide⟩
  · unfold resolveLib
    rw [h]
  · unfold resolveLib addDocSource
    rw [h]
    exact sourceGet_sourceSet sources (normalizeLib name) url

/-- Witness for C9: registering a dashed mixed-case name and resolving the
plain lowercase one. -/
theorem resolve_normalization_witness :
    resolveLib (addDocSource [] "Lang-Graph".toList "https://example.org/".toList)
        "langgraph".toList
      = some "https://example.org/".toList :=
  resolve_normalization.2.1 [] "Lang-Graph".toList "https://example.org/".toList
    "langgraph".toList (by decide)

/-- C10: an explicitly supplied limit of 0 suppresses all results; the default
of 10 is applied only when the limit is absent, as an 11-document matching
store searched without a limit returns exactly 10 hits. -/
theorem limit_zero_empty (store : List DocEntry) (q : List Char)
    (c : Option (List Char)) (ts : Option (List (List Char))) :
    search store ⟨q, c, ts, some 0⟩ = []
      ∧ (search storeC10 optsC10).length = 10 := by
  constructor
  · unfold search
    show List.take 0 _ = []
    exact List.take_zero _
  · unfold search
    rw [List.length_take,
      (List.mergeSort_perm (searchHits storeC10 optsC10) hitLE).length_eq]
    rw [show (searchHits storeC10 optsC10).length = 11 from by decide]
    decide


/-- C4: every returned hit's excerpt is the document's description when the
lowercased query does not occur in the lowercased content; when it first
occurs at offset p (no earlier occurrence exists), the excerpt is the slice
of the original content from max(0, p-50) to min(length, p+150), wrapped in
ellipsis markers. -/
theorem search_excerpt_window (store : List DocEntry) (opts : SearchOptions)
    (r : SearchResult) (h : r ∈ search store opts) :
    (jsIndexOf (lowerStr r.doc.content) (lowerStr opts.query) = none →
        r.excerpt = r.doc.description)
      ∧ ∀ p, jsIndexOf (lowerStr r.doc.content) (lowerStr opts.query) = some p →
          startsWith ((lowerStr r.doc.content).drop p) (lowerStr opts.query) = true
          ∧ (∀ q, q < p →
              startsWith ((lowerStr r.doc.content).drop q) (lowerStr opts.query) = false)
          ∧ r.excerpt
              = ellipsisMark
                ++ ((r.doc.content.take (min r.doc.content.length (p + 150))).drop (p - 50))
                ++ ellipsisMark := by
  obtain ⟨d, _, hhit⟩ := mem_search h
  obtain ⟨hdoc, _, _, hex⟩ := hitFor_inv hhit
  subst hdoc
  constructor
  · intro hnone
    rw [hex, excerptFor_none hnone]
  · intro p hp
    obtain ⟨h1, h2⟩ := jsIndexOf_first hp
    exact ⟨h1, h2, by rw [hex, excerptFor_some hp]⟩

/-- Witness for C4 at a one-document store whose content contains the query at
offset 6. -/
theorem search_excerpt_window_witness :
    rB.excerpt
      = ellipsisMark
        ++ ((rB.doc.content.take (min rB.doc.content.length (6 + 150))).drop (6 - 50))
        ++ ellipsisMark := by
  have hsearch : search [docB] optsB = [rB] := search_singleton (by decide) rfl
  exact ((search_excerpt_window [docB] optsB rB
    (by rw [hsearch]; exact List.mem_singleton.mpr rfl)).2 6 (by decide)).2.2

/-- C5 (amended): with a topic supplied, the filtered line scan collects, in
scan order, one window per scan match, each window spanning lines
max(0, i-3) to min(lineCount, i+10) around its match index i; the scan
resumes past the window end, so no line is matched twice (match indices are
strictly increasing), though a later window may reach back into an earlier
one; and when no line matches, the filter falls back to the whole content. -/
theorem topic_window_filtering (q content : List Char) (lines : List (List Char)) :
    relevantLines (lowerStr q) lines 0
        = (List.map (windowSlice lines) (scanTriples (lowerStr q) lines 0)).flatten
      ∧ (∀ w ∈ scanTriples (lowerStr q) lines 0,
          w.1 < lines.length
            ∧ lineMatches (lowerStr q) (lines.getD w.1 []) = true
            ∧ w.2.1 = w.1 - 3
            ∧ w.2.2 = min lines.length (w.1 + 10))
      ∧ (scanTriples (lowerStr q) lines 0).Pairwise (fun a b => a.1 < b.1)
      ∧ (q.isEmpty = false →
          (∀ l ∈ List.splitOn '\n' content, lineMatches (lowerStr q) l = false) →
          filteredContent content (some q) = content) := by
  refine ⟨relevantLines_eq_windows _ _ lines.length 0 (by omega), fun w hw => ?_,
    scanTriples_increasing _ _ lines.length 0 (by omega),
    fun hq hno => filteredContent_fallback content q hq hno⟩
  obtain ⟨_, h2⟩ := scanTriples_spec (lowerStr q) lines lines.length 0 (by omega) w hw
  exact h2

/-- Witness for C5: a two-line content with no matching line is returned
unfiltered. -/
theorem topic_window_filtering_witness :
    filteredContent "hello\nworld".toList (some "topic".toList)
      = "hello\nworld".toList :=
  (topic_window_filtering "topic".toList "hello\nworld".toList []).2.2.2
    (by decide) (by decide)

/-- C5 counterexample: the scan over `linesEx` matches lines 0 and 11 and emits
the windows [0,10) and [8,12), which overlap (8 < 10): lines appear twice in
the output though once in the input, refuting the claim that windows never
overlap. -/
theorem topic_windows_overlap_cex :
    scanTriples (lowerStr "topic".toList) linesEx 0 = [(0, 0, 10), (11, 8, 12)]
      ∧ (8 : Nat) < 10
      ∧ (relevantLines (lowerStr "topic".toList) linesEx 0).count "l8".toList = 2
      ∧ linesEx.count "l8".toList = 1 := by
  have e1 : min linesEx.length (0 + 10) = 10 := by decide
  have e2 : min linesEx.length (11 + 10) = 12 := by decide
  have h1 := @scanTriples_match (lowerStr "topic".toList) linesEx 0 (by decide) (by decide)
  rw [e1] at h1
  simp only [Nat.reduceSub, Nat.reduceAdd] at h1
  have h2 := @scanTriples_match (lowerStr "topic".toList) linesEx 11 (by decide) (by decide)
  rw [e2] at h2
  simp only [Nat.reduceSub, Nat.reduceAdd] at h2
  have h3 : scanTriples (lowerStr "topic".toList) linesEx 13 = [] :=
    scanTriples_stop (by decide)
  have r1 := @relevantLines_match (lowerStr "topic".toList) linesEx 0 (by decide) (by decide)
  rw [e1] at r1
  simp only [Nat.reduceSub, Nat.reduceAdd] at r1
  have r2 := @relevantLines_match (lowerStr "topic".toList) linesEx 11 (by decide) (by decide)
  rw [e2] at r2
  simp only [Nat.reduceSub, Nat.reduceAdd] at r2
  have r3 : relevantLines (lowerStr "topic".toList) linesEx 13 = [] :=
    relevantLines_stop (by decide)
  refine ⟨?_, by norm_num, ?_, by decide⟩
  · rw [h1, h2, h3]
  · rw [r1, r2, r3]
    decide

/-- C6: the content returned by the fetch pipeline is the fetched-and-filtered
text cut to its first 5000 characters plus the fixed truncation marker when
longer than 5000 characters, and that text unchanged otherwise. -/
theorem fetch_truncation (sources : List (List Char × List Char))
    (fetchUrl : List Char → Except (List Char) (List Char))
    (library : List Char) (query : Option (List Char)) (r : LibraryDocResult)
    (h : searchLibraryDocs sources fetchUrl library query = Except.ok r) :
    ∃ docUrl raw,
      sourceGet sources (normalizeLib library) = some docUrl
        ∧ fetchUrl docUrl = Except.ok raw
        ∧ (5000 < (filteredContent raw query).length →
            r.content = (filteredContent raw query).take 5000 ++ truncationMark)
        ∧ ((filteredContent raw query).length ≤ 5000 →
            r.content = filteredContent raw query) := by
  simp only [searchLibraryDocs] at h
  split at h
  · simp at h
  · rename_i docUrl hs
    split at h
    · simp at h
    · rename_i raw hf
      simp only [Except.ok.injEq] at h
      subst h
      refine ⟨docUrl, raw, hs, hf, ?_, ?_⟩
      · intro hlen
        show truncateContent (filteredContent raw query) = _
        unfold truncateContent
        rw [if_pos hlen]
      · intro hlen
        show truncateContent (filteredContent raw query) = _
        unfold truncateContent
        rw [if_neg (by omega)]

/-- Successful path of the pipeline, stated for rewriting. -/
lemma searchLibraryDocs_ok {sources : List (List Char × List Char)}
    {fetchUrl : List Char → Except (List Char) (List Char)}
    {library docUrl raw : List Char} {query : Option (List Char)}
    (hs : sourceGet sources (normalizeLib library) = some docUrl)
    (hf : fetchUrl docUrl = Except.ok raw) :
    searchLibraryDocs sources fetchUrl library query
      = Except.ok ⟨library, docUrl, truncateContent (filteredContent raw query), docUrl⟩ := by
  simp only [searchLibraryDocs, hs, hf]

/-- Witness for C6: fetching the registered react entry through an oracle that
returns 6000 characters truncates to 5000 plus the marker. -/
theorem fetch_truncation_witness :
    ∃ docUrl raw,
      sourceGet docSources (normalizeLib "react".toList) = some docUrl
        ∧ oracle6000 docUrl = Except.ok raw
        ∧ (5000 < (filteredContent raw none).length →
            rOk.content = (filteredContent raw none).take 5000 ++ truncationMark)
        ∧ ((filteredContent raw none).length ≤ 5000 →
            rOk.content = filteredContent raw none) := by
  have hlen : 5000 < (List.replicate 6000 'a').length := by
    rw [List.length_replicate]
    omega
  have hmin : (5000 : Nat) ⊓ 6000 = 5000 := by omega
  have hcontent : truncateContent (List.replicate 6000 'a')
      = List.replicate 5000 'a' ++ truncationMark := by
    unfold truncateContent
    rw [if_pos hlen, List.take_replicate, hmin]
  have hsg : sourceGet docSources (normalizeLib "react".toList) = some reactUrl := by
    decide
  have hor : oracle6000 reactUrl = Except.ok (List.replicate 6000 'a') := rfl
  have h := @searchLibraryDocs_ok docSources oracle6000 "react".toList reactUrl
    (List.replicate 6000 'a') none hsg hor
  have hfc : filteredContent (List.replicate 6000 'a') none = List.replicate 6000 'a' := rfl
  rw [hfc, hcontent] at h
  exact fetch_truncation docSources oracle6000 "react".toList none rOk h

/-- C7: for every library whose normalized name is not registered, the
pipeline fails, for every fetch oracle, with a SourceNotFound error carrying
exactly the four heuristically constructed fallback URLs. -/
theorem unknown_library_not_fetched (sources : List (List Char × List Char))
    (fetchUrl : List Char → Except (List Char) (List Char))
    (library : List Char) (query : Option (List Char))
    (h : sourceGet sources (normalizeLib library) = none) :
    searchLibraryDocs sources fetchUrl library query
      = Except.error (FetchError.sourceNotFound library
          [ "https://".toList ++ normalizeLib library ++ ".readthedocs.io/".toList,
            "https://docs.".toList ++ normalizeLib library ++ ".com/".toList,
            "https://".toList ++ normalizeLib library ++ ".org/docs/".toList,
            "https://github.com/".toList ++ normalizeLib library ++ "/".toList
              ++ normalizeLib library ]) := by
  simp only [searchLibraryDocs, h]
  rfl

/-- Witness for C7: an unregistered name fails identically under an oracle
that would error on any fetch. -/
theorem unknown_library_not_fetched_witness :
    searchLibraryDocs docSources (fun _ => Except.error []) "somelib".toList none
      = Except.error (FetchError.sourceNotFound "somelib".toList
          [ "https://".toList ++ normalizeLib "somelib".toList
              ++ ".readthedocs.io/".toList,
            "https://docs.".toList ++ normalizeLib "somelib".toList ++ ".com/".toList,
            "https://".toList ++ normalizeLib "somelib".toList ++ ".org/docs/".toList,
            "https://github.com/".toList ++ normalizeLib "somelib".toList
              ++ "/".toList ++ normalizeLib "somelib".toList ]) :=
  unknown_library_not_fetched docSources (fun _ => Except.error [])
    "somelib".toList none (by decide)

end CheckModule
